import Mathlib

/-!
Verification of the BI Office Hours participant-assignment app (`src/app.py`).

Dates are embedded as integers counting days from 2024-01-01 (a Monday), so
that `d % 7` coincides with Python's `date.weekday()` (Monday = 0, Friday = 4)
and date differences in days are plain integer subtraction.  Python's `%` on
integers agrees with `Int.emod` (result has the sign of the positive divisor).
-/

namespace BIOfficeHours

/-- Day number of the anchor date 2024-01-05 (`dt.date(2024, 1, 5)` in the
code), counting 2024-01-01 as day 0. -/
def reference_date : Int := 4

/-- Embedding of `get_next_friday` (src/app.py lines 54-60):
`days_until_next_friday = (4 - today.weekday()) % 7`;
`next_friday = today + timedelta(days=days_until_next_friday)`;
if `(next_friday - date(2024,1,5)).days % 14 != 0` then add 14 days. -/
def get_next_friday (today : Int) : Int :=
  let days_until_next_friday := (4 - today % 7) % 7
  let next_friday := today + days_until_next_friday
  if (next_friday - reference_date) % 14 ≠ 0 then next_friday + 14 else next_friday

/-- C1: the code evaluated at `today` = 2024-01-06 (day 5, a Saturday): the
naive next Friday is 2024-01-12 (day 11), which is 7 days past the anchor, so
the code adds 14 days and returns 2024-01-26 (day 25) — but day 25 is still 21
days past the anchor and `21 % 14 = 7 ≠ 0`, so the returned date is *not* on
the biweekly cadence, contradicting the claimed invariant (adding 14 days can
never change the residue modulo 14). -/
theorem get_next_friday_cadence_bug :
    get_next_friday 5 = 25 ∧ (get_next_friday 5 - reference_date) % 14 = 7 := by
  constructor <;> rfl

/-- C6: if `today` is itself a Friday (`today % 7 = 4`) lying on the biweekly
cadence (`(today - reference_date) % 14 = 0`), then `get_next_friday` returns
`today` unchanged: the next-Friday offset is 0 and the modulo check passes. -/
theorem get_next_friday_fixed_point (today : Int)
    (h1 : today % 7 = 4) (h2 : (today - reference_date) % 14 = 0) :
    get_next_friday today = today := by
  unfold get_next_friday reference_date
  unfold reference_date at h2
  dsimp only
  split <;> omega

/-- Witness for C6 at `today` = 2024-01-05 (day 4), the anchor itself. -/
theorem get_next_friday_fixed_point_witness :
    (4 : Int) % 7 = 4 ∧ ((4 : Int) - reference_date) % 14 = 0 ∧
      get_next_friday 4 = 4 :=
  ⟨by decide, by decide, get_next_friday_fixed_point 4 (by decide) (by decide)⟩

/-- C10: the result of `get_next_friday` is never earlier than `today` and at
most 20 days after it: the next-Friday offset `(4 - today % 7) % 7` lies in
0..6, and at most one extra 14-day advance is applied. -/
theorem get_next_friday_at_most_20_days (today : Int) :
    today ≤ get_next_friday today ∧ get_next_friday today ≤ today + 20 := by
  unfold get_next_friday reference_date
  dsimp only
  split <;> omega

/-- One row of the `session_history` table: `(date, participant_1, participant_2)`. -/
structure SessionRecord where
  date : Int
  participant_1 : String
  participant_2 : String
deriving DecidableEq

/-- Embedding of the argument built at the call site (src/app.py line 100):
`pd.concat([session_df["participant_1"], session_df["participant_2"]])` stacks
the whole `participant_1` column first and the whole `participant_2` column
after it (grouped by column, not interleaved per row).  An empty history gives
the empty series. -/
def concat_columns (df : List SessionRecord) : List String :=
  df.map (·.participant_1) ++ df.map (·.participant_2)

/-- Loop of `series_unique`: pandas' hashtable-based dedup, keeping the first
occurrence of each value; `seen` is the set of values already emitted. -/
def series_unique_loop (seen : List String) : List String → List String
  | [] => []
  | x :: xs =>
      if seen.contains x then series_unique_loop seen xs
      else x :: series_unique_loop (x :: seen) xs

/-- Embedding of `pandas.Series.unique()`: the distinct values in order of
first appearance. -/
def series_unique (l : List String) : List String :=
  series_unique_loop [] l

/-- Embedding of `df.unique().tolist()[:threshold]` (src/app.py line 63): the
exclusion list of "recently used" participants. -/
def prev_participants (df : List String) (threshold : Nat) : List String :=
  (series_unique df).take threshold

/-- Embedding of `random.sample(pop, 2)` with the random source injected as two
numbers `c1 c2`: two distinct positions of `pop` are chosen (every pair of
distinct positions is reachable for suitable `c1 c2`).  `random.sample` raises
`ValueError` when the population has fewer than 2 elements; this is the `none`
case. -/
def random_sample_two (pop : List String) (c1 c2 : Nat) : Option (String × String) :=
  if h : 2 ≤ pop.length then
    let i : Fin pop.length := ⟨c1 % pop.length, Nat.mod_lt _ (by omega)⟩
    let j0 : Nat := c2 % (pop.length - 1)
    have hj0 : j0 < pop.length - 1 := Nat.mod_lt _ (by omega)
    let j : Fin pop.length := if i.val ≤ j0 then ⟨j0 + 1, by omega⟩ else ⟨j0, by omega⟩
    some (pop.get i, pop.get j)
  else none

/-- Embedding of `get_next_participants` (src/app.py lines 62-65):
`prev_participants = df.unique().tolist()[:threshold]`;
`random.sample([p for p in available_team if p not in prev_participants], 2)`. -/
def get_next_participants (df : List String) (available_team : List String)
    (threshold : Nat) (c1 c2 : Nat) : Option (String × String) :=
  random_sample_two
    (available_team.filter (fun p => decide (p ∉ prev_participants df threshold)))
    c1 c2

/-- Outcome of the "Assign Participants!" button handler. -/
inductive AssignOutcome where
  | warning
  | crash
  | assigned (pair : String × String)
deriving DecidableEq

/-- Embedding of `add_participants_entry` (src/app.py lines 67-70): appends one
row at the end (`pd.concat(..., ignore_index=True)`). -/
def add_participants_entry (df : List SessionRecord) (next_participants : String × String)
    (next_date : Int) : List SessionRecord :=
  df ++ [⟨next_date, next_participants.1, next_participants.2⟩]

/-- Embedding of the "Assign Participants!" button handler (src/app.py lines
94-107), with the recency threshold kept as a parameter (the call site passes
`threshold=3`): if fewer than 2 members are available it shows a warning
(`st.warning`) and leaves the history untouched; otherwise it calls
`get_next_participants`, which raises an unhandled `ValueError` (`crash`) when
the post-exclusion candidate pool has fewer than 2 names; on success the pair
is announced and, when "Save Results" is checked, appended to the history. -/
def assign_button_handler (session_df : List SessionRecord) (available_team : List String)
    (threshold : Nat) (save_results : Bool) (next_date : Int) (c1 c2 : Nat) :
    AssignOutcome × List SessionRecord :=
  if available_team.length < 2 then (.warning, session_df)
  else
    match get_next_participants (concat_columns session_df) available_team threshold c1 c2 with
    | none => (.crash, session_df)
    | some pair =>
        (.assigned pair,
          if save_results then add_participants_entry session_df pair next_date
          else session_df)

/-- "First `w` distinct values" of a list, written as a direct truncated
first-occurrence dedup: used to characterise the exclusion list that
`get_next_participants` actually builds. -/
def first_w_distinct : Nat → List String → List String
  | 0, _ => []
  | _ + 1, [] => []
  | w + 1, x :: xs => x :: first_w_distinct w (xs.filter (fun y => y != x))

/-- The "recently used" list as §4.2 of the spec words it: the first `w`
entries of the flattened, insertion-order list of participants with
`participant_1`/`participant_2` interleaved per record and no deduplication.
Stated only to be compared with the list the code builds. -/
def spec_interleaved_recent (history : List SessionRecord) (w : Nat) : List String :=
  ((history.map (fun r => [r.participant_1, r.participant_2])).flatten).take w

theorem series_unique_loop_take (l : List String) :
    ∀ (w : Nat) (seen : List String),
      (series_unique_loop seen l).take w
        = first_w_distinct w (l.filter (fun y => !(seen.contains y))) := by
  induction l with
  | nil => intro w seen; cases w <;> simp [series_unique_loop, first_w_distinct]
  | cons x xs ih =>
    intro w seen
    rw [series_unique_loop]
    by_cases hx : seen.contains x = true
    · rw [if_pos hx, List.filter_cons]
      have hfalse : (!(seen.contains x)) = false := by rw [hx]; rfl
      rw [hfalse, if_neg (by simp)]
      exact ih w seen
    · have hx' : seen.contains x = false := Bool.eq_false_iff.mpr hx
      rw [if_neg hx, List.filter_cons]
      have htrue : (!(seen.contains x)) = true := by rw [hx']; rfl
      rw [htrue, if_pos rfl]
      cases w with
      | zero => simp [first_w_distinct]
      | succ w' =>
        rw [List.take_succ_cons, first_w_distinct, ih w' (x :: seen)]
        apply congrArg (fun l => x :: first_w_distinct w' l)
        rw [List.filter_filter]
        apply List.filter_congr
        intro y _
        simp only [List.contains_cons, Bool.not_or, bne, Bool.and_comm]

theorem series_unique_take (w : Nat) (l : List String) :
    (series_unique l).take w = first_w_distinct w l := by
  have h := series_unique_loop_take l w []
  simpa [series_unique] using h

/-- C2 (amended): the "recently used" exclusion list used by
`get_next_participants` consists of the first `w` *distinct* participants of
the column-grouped list (the whole `participant_1` column in insertion order,
followed by the whole `participant_2` column in insertion order): the two
columns are stacked, not interleaved, and deduplication (first occurrence
kept) happens before the first `w` entries are taken. -/
theorem prev_participants_grouped_dedup (history : List SessionRecord) (w : Nat) :
    prev_participants (concat_columns history) w
      = first_w_distinct w
          (history.map (·.participant_1) ++ history.map (·.participant_2)) :=
  series_unique_take w (concat_columns history)

/-- C2 counterexample: for history `[(A,B), (C,D)]` and window 2 the code's
exclusion set is `{A, C}` (column-grouped, deduplicated) while the claimed
interleaved flatten-then-truncate gives `{A, B}`: the two sets differ. -/
theorem prev_participants_not_interleaved :
    "C" ∈ prev_participants (concat_columns [⟨0, "A", "B"⟩, ⟨1, "C", "D"⟩]) 2 ∧
    "C" ∉ spec_interleaved_recent [⟨0, "A", "B"⟩, ⟨1, "C", "D"⟩] 2 ∧
    "B" ∈ spec_interleaved_recent [⟨0, "A", "B"⟩, ⟨1, "C", "D"⟩] 2 ∧
    "B" ∉ prev_participants (concat_columns [⟨0, "A", "B"⟩, ⟨1, "C", "D"⟩]) 2 := by
  decide

/-- C3 counterexample: with history `[(A,B)]`, available `{A,B}` and window 2,
every available name is recently used, and the handler neither warns nor
recovers: `random.sample` is called on an empty candidate pool and raises an
unhandled `ValueError` (the `crash` outcome), contradicting the claim that a
too-small eligible set is always surfaced as a recoverable warning. -/
theorem assign_insufficient_crashes :
    assign_button_handler [⟨0, "A", "B"⟩] ["A", "B"] 2 true 5 0 0
      = (.crash, [⟨0, "A", "B"⟩]) := by
  decide

/-- C3 (amended): if fewer than 2 names are available at all, the handler
surfaces a user-facing warning and mutates no state; but if at least 2 names
are available while fewer than 2 survive the recently-used exclusion, the
selection raises an unhandled `ValueError` (a crash, not a recoverable
warning), also mutating no state. -/
theorem assign_insufficient_candidates (session_df : List SessionRecord)
    (available_team : List String) (threshold : Nat) (save_results : Bool)
    (next_date : Int) (c1 c2 : Nat) :
    (available_team.length < 2 →
      assign_button_handler session_df available_team threshold save_results next_date c1 c2
        = (.warning, session_df)) ∧
    (2 ≤ available_team.length →
      (available_team.filter
          (fun p => decide (p ∉ prev_participants (concat_columns session_df) threshold))).length < 2 →
      assign_button_handler session_df available_team threshold save_results next_date c1 c2
        = (.crash, session_df)) := by
  constructor
  · intro h
    rw [assign_button_handler, if_pos h]
  · intro h2 helig
    rw [assign_button_handler, if_neg (by omega)]
    have hnone : get_next_participants (concat_columns session_df) available_team threshold c1 c2
        = none := by
      rw [get_next_participants, random_sample_two, dif_neg (by omega)]
    rw [hnone]

/-- Witness for C3 (amended): an empty roster of availables yields the
warning; two availables that are both recently used yield the crash. -/
theorem assign_insufficient_candidates_witness :
    assign_button_handler [] ["A"] 3 true 0 0 0 = (.warning, []) ∧
    assign_button_handler [⟨0, "A", "B"⟩] ["A", "B"] 2 true 0 0 0
      = (.crash, [⟨0, "A", "B"⟩]) :=
  ⟨(assign_insufficient_candidates [] ["A"] 3 true 0 0 0).1 (by decide),
   (assign_insufficient_candidates [⟨0, "A", "B"⟩] ["A", "B"] 2 true 0 0 0).2
     (by decide) (by decide)⟩

theorem random_sample_two_spec (pop : List String) (c1 c2 : Nat)
    (hnd : pop.Nodup) (h : 2 ≤ pop.length) :
    ∃ p q, random_sample_two pop c1 c2 = some (p, q) ∧ p ≠ q ∧ p ∈ pop ∧ q ∈ pop := by
  rw [random_sample_two, dif_pos h]
  dsimp only
  have hi : c1 % pop.length < pop.length := Nat.mod_lt _ (by omega)
  have hj0 : c2 % (pop.length - 1) < pop.length - 1 := Nat.mod_lt _ (by omega)
  split
  case isTrue hle =>
    refine ⟨_, _, rfl, ?_, List.get_mem _ _ _, List.get_mem _ _ _⟩
    intro hpq
    have := (hnd.get_inj_iff).mp hpq
    have := congrArg Fin.val this
    simp only at this
    omega
  case isFalse hle =>
    refine ⟨_, _, rfl, ?_, List.get_mem _ _ _, List.get_mem _ _ _⟩
    intro hpq
    have := (hnd.get_inj_iff).mp hpq
    have := congrArg Fin.val this
    simp only at this
    omega

/-- C4: whenever at least 2 available names survive the recently-used
exclusion, `get_next_participants` succeeds and returns two distinct names,
both available and neither recently used, for every outcome of the injected
random source. -/
theorem get_next_participants_sound (df : List String) (available_team : List String)
    (threshold : Nat) (c1 c2 : Nat) (hnodup : available_team.Nodup)
    (hlen : 2 ≤ (available_team.filter
        (fun p => decide (p ∉ prev_participants df threshold))).length) :
    ∃ p q, get_next_participants df available_team threshold c1 c2 = some (p, q) ∧
      p ≠ q ∧ p ∈ available_team ∧ q ∈ available_team ∧
      p ∉ prev_participants df threshold ∧ q ∉ prev_participants df threshold := by
  obtain ⟨p, q, heq, hpq, hp, hq⟩ :=
    random_sample_two_spec
      (available_team.filter (fun p => decide (p ∉ prev_participants df threshold)))
      c1 c2 (hnodup.filter _) hlen
  obtain ⟨hpmem, hpdec⟩ := List.mem_filter.mp hp
  obtain ⟨hqmem, hqdec⟩ := List.mem_filter.mp hq
  exact ⟨p, q, heq, hpq, hpmem, hqmem, of_decide_eq_true hpdec, of_decide_eq_true hqdec⟩

/-- Witness for C4: empty history, availables `{A, B}`. -/
theorem get_next_participants_sound_witness :
    (["A", "B"] : List String).Nodup ∧
    2 ≤ ((["A", "B"] : List String).filter
        (fun p => decide (p ∉ prev_participants [] 3))).length ∧
    ∃ p q, get_next_participants [] ["A", "B"] 3 0 0 = some (p, q) ∧
      p ≠ q ∧ p ∈ (["A", "B"] : List String) ∧ q ∈ (["A", "B"] : List String) ∧
      p ∉ prev_participants [] 3 ∧ q ∉ prev_participants [] 3 :=
  ⟨by decide, by decide,
   get_next_participants_sound [] ["A", "B"] 3 0 0 (by decide) (by decide)⟩

/-- The concrete scenario history of C5: `[(A,B), (C,D), (A,C)]`. -/
def c5_history : List SessionRecord :=
  [⟨0, "A", "B"⟩, ⟨1, "C", "D"⟩, ⟨2, "A", "C"⟩]

/-- C5: on history `[(A,B), (C,D), (A,C)]` with availables `{A,B,C,D,E}` and
window 3, the exclusion set works out to `{A, B, C}`, leaving `{D, E}` as the
only eligible pair: every outcome of the random source returns exactly the
unordered pair `{D, E}`. -/
theorem c5_unique_eligible_pair (c1 c2 : Nat) :
    get_next_participants (concat_columns c5_history) ["A", "B", "C", "D", "E"] 3 c1 c2
      = some ("D", "E") ∨
    get_next_participants (concat_columns c5_history) ["A", "B", "C", "D", "E"] 3 c1 c2
      = some ("E", "D") := by
  have helig : (["A", "B", "C", "D", "E"].filter
      (fun p => decide (p ∉ prev_participants (concat_columns c5_history) 3)))
      = ["D", "E"] := by decide
  rw [get_next_participants, helig]
  rcases Nat.mod_two_eq_zero_or_one c1 with h | h
  · left
    simp [random_sample_two, h, Nat.mod_one]
  · right
    simp [random_sample_two, h, Nat.mod_one]

/-- Embedding of the frequency chart's data (src/app.py lines 120-121): the
history is melted over both participant columns and grouped by name, so each
name's count is its number of occurrences across the two stacked columns. -/
def frequency (df : List SessionRecord) (name : String) : Nat :=
  ((df.map (·.participant_1)) ++ (df.map (·.participant_2))).count name

/-- C7: appending one record for two distinct names increments each of their
frequency counts by exactly 1 and leaves every other name's count unchanged. -/
theorem add_entry_frequency (df : List SessionRecord) (p1 p2 : String) (d : Int)
    (hne : p1 ≠ p2) :
    frequency (add_participants_entry df (p1, p2) d) p1 = frequency df p1 + 1 ∧
    frequency (add_participants_entry df (p1, p2) d) p2 = frequency df p2 + 1 ∧
    ∀ n, n ≠ p1 → n ≠ p2 →
      frequency (add_participants_entry df (p1, p2) d) n = frequency df n := by
  refine ⟨?_, ?_, ?_⟩
  · simp [frequency, add_participants_entry, List.map_append, List.count_append,
      List.count_cons, hne]
    omega
  · simp [frequency, add_participants_entry, List.map_append, List.count_append,
      List.count_cons, Ne.symm hne]
    omega
  · intro n hn1 hn2
    simp [frequency, add_participants_entry, List.map_append, List.count_append,
      List.count_cons, Ne.symm hn1, Ne.symm hn2]

/-- Witness for C7: appending `(A, B)` to the empty ledger. -/
theorem add_entry_frequency_witness :
    ("A" : String) ≠ "B" ∧
    frequency (add_participants_entry [] ("A", "B") 0) "A" = frequency [] "A" + 1 ∧
    frequency (add_participants_entry [] ("A", "B") 0) "C" = frequency [] "C" :=
  ⟨by decide,
   (add_entry_frequency [] "A" "B" 0 (by decide)).1,
   (add_entry_frequency [] "A" "B" 0 (by decide)).2.2 "C" (by decide) (by decide)⟩

/-- One spreadsheet cell: a raw string, a boolean flag, or a parsed calendar
date (what `pd.to_datetime(...).dt.date` produces). -/
inductive Cell where
  | str (s : String)
  | flag (b : Bool)
  | date (y m d : Nat)
deriving DecidableEq

/-- One named sheet of the workbook: a header row of column names and the data
rows. -/
structure Table where
  header : List String
  rows : List (List Cell)
deriving DecidableEq

/-- The empty `participants` sheet built by `get_data` when the store is
missing (src/app.py line 49). -/
def empty_participants_table : Table :=
  { header := ["participant", "is_active"], rows := [] }

/-- The empty `session_history` sheet built by `get_data` when the store is
missing (src/app.py line 50). -/
def empty_session_table : Table :=
  { header := ["date", "participant_1", "participant_2"], rows := [] }

/-- Model of `pd.to_datetime(s, format="%Y-%m-%d")` on one value: accepts
`year-month-day` with numeric parts and month/day in calendar range, failing
(`None`) on anything malformed. -/
def parse_iso_date (s : String) : Option Cell :=
  match s.splitOn "-" with
  | [ys, ms, ds] =>
    match ys.toNat?, ms.toNat?, ds.toNat? with
    | some y, some m, some d =>
        if 1 ≤ m ∧ m ≤ 12 ∧ 1 ≤ d ∧ d ≤ 31 then some (.date y m d) else none
    | _, _, _ => none
  | _ => none

/-- Model of `session_df["date"] = pd.to_datetime(session_df["date"],
format="%Y-%m-%d").dt.date` (src/app.py line 51): every row's first cell must
be a string parsing as an ISO date; a malformed value makes the whole load
fail.  An empty table converts trivially. -/
def convert_date_column (t : Table) : Option Table :=
  (t.rows.mapM (fun row =>
    match row with
    | Cell.str s :: rest => (parse_iso_date s).map (fun c => c :: rest)
    | _ => none)).map
    (fun rows => { t with rows := rows })

/-- Embedding of `get_data` (src/app.py lines 41-52) over the local-file
backend: the argument models the result of `read_local_file` (`none` when
`bi_office_hours.xlsx` does not exist, otherwise the two sheets read from
it).  On a missing store it substitutes the two empty tables, then converts
the session table's date column. -/
def get_data (store : Option (Table × Table)) : Option (Table × Table) :=
  let loaded := match store with
    | some pair => pair
    | none => (empty_participants_table, empty_session_table)
  (convert_date_column loaded.2).map (fun s => (loaded.1, s))

/-- C9: when the local store does not exist, `get_data` does not fail: it
returns an empty roster table with columns `participant`/`is_active` and an
empty history table with columns `date`/`participant_1`/`participant_2`. -/
theorem get_data_missing_store :
    get_data none = some
      ({ header := ["participant", "is_active"], rows := [] },
       { header := ["date", "participant_1", "participant_2"], rows := [] }) := by
  rfl

end BIOfficeHours
